import Mathlib

/-!
Shallow embedding of the Visual Feedback server core
(`server.js`: element identity, bead memory store, task store,
task lifecycle handlers, commit-hash output parsing), together with
proofs of the specified properties.
-/

set_option maxHeartbeats 1000000

namespace VisualFeedback

/-! ## Element identity (source: `generateElementId`, lines 37–52)

The source computes a pipe-joined key from
`(tag, id || '', (classes || []).sort().join('.'), selector || '')`,
hashes the key with the classic `h = (h << 5) - h + charCode` loop over the
UTF-16 code units, coerced to a signed 32-bit integer at each step, and
renders `'el-' + Math.abs(hash).toString(16).slice(0, 8)`.
-/

/-- An element descriptor as received from the extension: a tag name plus
optional id, class list and CSS selector (source data model). -/
structure ElementDescriptor where
  tag : String
  id : Option String
  classes : Option (List String)
  selector : Option String
deriving DecidableEq, Repr

/-- UTF-16 code units of a character, as JavaScript `charCodeAt` enumerates
them (a surrogate pair for code points beyond the BMP). -/
def utf16Codes (c : Char) : List Nat :=
  if c.toNat < 65536 then [c.toNat]
  else
    let v := c.toNat - 65536
    [55296 + v / 1024, 56320 + v % 1024]

/-- UTF-16 code units of a string, in order. -/
def utf16Units (s : String) : List Nat :=
  (s.data.map utf16Codes).flatten

/-- Coercion of an integer to the signed 32-bit range, as the JavaScript
bitwise operators (`<<`, `&`) perform on their operands and result. -/
def toInt32 (n : Int) : Int :=
  let m := n % 4294967296
  if 2147483648 ≤ m then m - 4294967296 else m

/-- One step of the source hash loop:
`hash = ((hash << 5) - hash) + char; hash = hash & hash`. -/
def hashStep (h : Int) (c : Nat) : Int :=
  toInt32 (toInt32 (h * 32) - h + c)

/-- The full hash of the source: fold `hashStep` over the code units,
starting from 0. -/
def jsHash (codes : List Nat) : Int :=
  codes.foldl hashStep 0

/-- JavaScript default `Array.prototype.sort` on strings: stable sort by
string comparison (modelled with the lexicographic order on `String`). -/
def sortStrings (l : List String) : List String :=
  List.insertionSort (· ≤ ·) l

/-- The pipe-joined key of `generateElementId` (source lines 38–43):
`[tag, id || '', (classes || []).sort().join('.'), selector || ''].join('|')`. -/
def elementKey (e : ElementDescriptor) : String :=
  String.intercalate "|"
    [e.tag, e.id.getD "", String.intercalate "." (sortStrings (e.classes.getD [])), e.selector.getD ""]

/-- Source `generateElementId` (lines 37–52): hash the key and render
`'el-' + Math.abs(hash).toString(16).slice(0, 8)`. -/
def generateElementId (e : ElementDescriptor) : String :=
  "el-" ++ String.mk ((Nat.toDigits 16 (jsHash (utf16Units (elementKey e))).natAbs).take 8)

/-! ## Bead memory store (source: `saveElementBead`, lines 71–103)

`saveElementBead` loads the existing bead (or creates a fresh one holding a
snapshot of the descriptor and an empty change list), pushes a new change
record, and truncates the list to the last 10 entries
(`bead.changes.slice(-10)`). We model the pure record transformation; the
surrounding file I/O (`loadElementBead` / `writeFileSync`) is best-effort
and does not affect the record contents.
-/

/-- One entry of a bead history (source lines 88–93). -/
structure ChangeRecord where
  taskId : String
  feedback : String
  timestamp : String
  success : Bool
deriving DecidableEq, Repr

/-- The descriptor snapshot stored inside a bead at creation
(source lines 78–83). -/
structure BeadElement where
  tag : String
  id : Option String
  classes : Option (List String)
  selector : Option String
deriving DecidableEq, Repr

/-- A bead: per-element memory record (source lines 76–85). -/
structure Bead where
  id : String
  element : BeadElement
  changes : List ChangeRecord
deriving DecidableEq, Repr

/-- The snapshot taken of a descriptor when a bead is first created
(source lines 78–83). -/
def beadSnapshot (e : ElementDescriptor) : BeadElement :=
  ⟨e.tag, e.id, e.classes, e.selector⟩

/-- Source `saveElementBead` (lines 71–103), as the pure transformation of
the loaded bead (`existing = none` models a missing or unparsable bead
file): load-or-create, append a `ChangeRecord`, keep the last 10. -/
def saveElementBead (existing : Option Bead) (element : ElementDescriptor)
    (feedback taskId timestamp : String) (success : Bool) : Bead :=
  let bead := existing.getD
    { id := generateElementId element, element := beadSnapshot element, changes := [] }
  let cs := bead.changes ++ [⟨taskId, feedback, timestamp, success⟩]
  { bead with changes := if 10 < cs.length then cs.drop (cs.length - 10) else cs }

/-! ## Output parsing (source: `child.on('close')`, lines 413–426)

The source runs three regexes in order over the accumulated log, keeping
the first match:

  `/COMMIT_HASH:\s*([a-f0-9]{40})/i`
  `/\[([a-f0-9]{7,40})\]/i`
  `/commit\s+([a-f0-9]{7,40})/i`

`String.match` returns the leftmost match of a pattern, so each matcher is
modelled as an anchored attempt `pAt` tried at every start position from
the left (`findFirst`). Greediness needs no backtracking in these patterns
because `\s` and `[a-f0-9]` are disjoint character classes.
-/

/-- Characters matched by the JavaScript regex class `\s`. -/
def isJsSpace (c : Char) : Bool :=
  c.toNat = 9 || c.toNat = 10 || c.toNat = 11 || c.toNat = 12 || c.toNat = 13 ||
  c.toNat = 32 || c.toNat = 160 || c.toNat = 5760 ||
  (8192 ≤ c.toNat && c.toNat ≤ 8202) || c.toNat = 8232 || c.toNat = 8233 ||
  c.toNat = 8239 || c.toNat = 8287 || c.toNat = 12288 || c.toNat = 65279

/-- Characters matched by `[a-f0-9]` under the `i` flag: digits and hex
letters of either case. -/
def isHexDigit (c : Char) : Bool :=
  (48 ≤ c.toNat && c.toNat ≤ 57) || (97 ≤ c.toNat && c.toNat ≤ 102) ||
  (65 ≤ c.toNat && c.toNat ≤ 70)

/-- ASCII lowercasing, as the `i` flag folds the letters appearing in these
patterns. -/
def asciiLower (c : Char) : Char :=
  if 65 ≤ c.toNat ∧ c.toNat ≤ 90 then Char.ofNat (c.toNat + 32) else c

/-- Matches a literal pattern (already lowercase) case-insensitively at the
start of the input, returning the rest of the input on success. -/
def matchLowerLit : List Char → List Char → Option (List Char)
  | [], s => some s
  | _ :: _, [] => none
  | p :: ps, c :: cs => if asciiLower c = p then matchLowerLit ps cs else none

/-- Attempt of `/COMMIT_HASH:\s*([a-f0-9]{40})/i` at the start of the
input; returns the captured 40 hex characters. -/
def p1At (s : List Char) : Option (List Char) :=
  match matchLowerLit "commit_hash:".data s with
  | none => none
  | some rest =>
    let hx := (rest.dropWhile isJsSpace).take 40
    if hx.length = 40 ∧ hx.all isHexDigit then some hx else none

/-- Attempt of `/\[([a-f0-9]{7,40})\]/i` at the start of the input;
returns the captured bracketed hex run. -/
def p2At (s : List Char) : Option (List Char) :=
  match s with
  | '[' :: rest =>
    let run := rest.takeWhile isHexDigit
    if 7 ≤ run.length ∧ run.length ≤ 40 ∧ (rest.drop run.length).head? = some ']'
    then some run else none
  | _ => none

/-- Attempt of `/commit\s+([a-f0-9]{7,40})/i` at the start of the input;
returns the captured hex identifier (the greedy quantifier takes at most
40 characters of the hex run). -/
def p3At (s : List Char) : Option (List Char) :=
  match matchLowerLit "commit".data s with
  | none => none
  | some rest =>
    let ws := rest.takeWhile isJsSpace
    if 1 ≤ ws.length then
      let hx := (rest.drop ws.length).takeWhile isHexDigit
      if 7 ≤ hx.length then some (hx.take 40) else none
    else none

/-- Leftmost match: try the anchored matcher at each start position from
the left, as `String.match` does for an unanchored regex. -/
def findFirst (p : List Char → Option (List Char)) : List Char → Option (List Char)
  | [] => p []
  | c :: rest =>
    match p (c :: rest) with
    | some r => some r
    | none => findFirst p rest

/-- The commit-hash extraction of the close handler (source lines 415–417):
the regex chain `match(p1) || match(p2) || match(p3)` — first pattern that
matches anywhere wins. -/
def extractCommit (log : String) : Option (List Char) :=
  match findFirst p1At log.data with
  | some c => some c
  | none =>
    match findFirst p2At log.data with
    | some c => some c
    | none => findFirst p3At log.data

/-- Attempt of `/github\.com[:/]([^\/]+\/[^\/\s.]+)/i` at the start of the
input (source line 421); returns the captured repository slug. -/
def repoAt (s : List Char) : Option (List Char) :=
  match matchLowerLit "github.com".data s with
  | none => none
  | some rest =>
    match rest with
    | sep :: rest2 =>
      if sep = ':' ∨ sep = '/' then
        let a := rest2.takeWhile (· ≠ '/')
        if 1 ≤ a.length ∧ (rest2.drop a.length).head? = some '/' then
          let b := (rest2.drop (a.length + 1)).takeWhile
            (fun c => ¬ (c = '/' ∨ isJsSpace c ∨ c = '.'))
          if 1 ≤ b.length then some (a ++ '/' :: b) else none
        else none
      else none
    | [] => none

/-- Source line 423: strip a trailing `.git` from the captured slug
(`repo.replace(/\.git$/, '')`). -/
def stripDotGit (repo : List Char) : List Char :=
  if repo.length ≥ 4 ∧ repo.drop (repo.length - 4) = ".git".data
  then repo.take (repo.length - 4) else repo

/-! ## Task records and lifecycle handlers (source lines 315–437)

A `visual_feedback` message creates a task record with status
`processing` and null completion fields, then spawns the agent process and
registers three handlers: stream data appends to the log, `'error'` marks
the task failed and acknowledges the requester with
`{success:false, error, taskId}`, `'close'` classifies the exit code, runs
the commit extraction, and acknowledges with `{success, taskId}`.

Node.js `child_process` event semantics (documented): stream `data` events
arrive while the child runs; on normal termination `'close'` fires once
with the exit code (which is `null` when the child was terminated by a
signal); on spawn failure `'error'` fires and the `'close'` event still
always fires afterwards, with a `null` code. A run of a task is therefore
a fold of the handlers over a list of `ChildEvent`s.
-/

/-- Task status (source: `'processing' | 'complete' | 'failed'`). -/
inductive Status where
  | processing
  | complete
  | failed
deriving DecidableEq, Repr

/-- The element summary stored in a task record (source lines 330–335):
classes defaulted to the empty list. -/
structure TaskElement where
  tag : String
  classes : List String
  selector : Option String
  id : Option String
deriving DecidableEq, Repr

/-- A task record (source lines 327–346). Timestamps are the opaque
strings `new Date().toISOString()` produced when the record is touched. -/
structure Task where
  id : String
  feedback : String
  element : TaskElement
  projectPath : String
  pageUrl : Option String
  model : String
  status : Status
  startedAt : String
  completedAt : Option String
  log : String
  exitCode : Option Int
  commitHash : Option String
  commitUrl : Option String
deriving DecidableEq, Repr

/-- Creation of the task record on accepting a `visual_feedback` message
(source lines 327–346). -/
def createTask (id feedback : String) (element : ElementDescriptor)
    (projectPath : String) (pageUrl : Option String) (model startedAt : String) : Task :=
  { id := id
    feedback := feedback
    element := ⟨element.tag, element.classes.getD [], element.selector, element.id⟩
    projectPath := projectPath
    pageUrl := pageUrl
    model := model
    status := Status.processing
    startedAt := startedAt
    completedAt := none
    log := ""
    exitCode := none
    commitHash := none
    commitUrl := none }

/-- A terminal acknowledgment sent to the original requester over the
requesting socket: the error handler sends
`{success:false, error, taskId}` (source line 404), the close handler
sends `{success, taskId}` (source line 433). -/
inductive Ack where
  | fromSpawnError (emsg : String)
  | fromClose (success : Bool)
deriving DecidableEq, Repr

/-- An event delivered by the child process to the registered handlers. -/
inductive ChildEvent where
  | output (text : String)
  | spawnError (emsg : String) (at_ : String)
  | closed (code : Option Int) (at_ : String)
deriving DecidableEq, Repr

/-- The stdout/stderr data handlers (source lines 385–395): append the
chunk to the accumulated log. -/
def outputHandler (t : Task) (text : String) : Task :=
  { t with log := t.log ++ text }

/-- The `child.on('error')` handler (source lines 397–405): mark the task
failed, set `completedAt`, append the message to the log, and send a
failure acknowledgment. `exitCode` is not touched. -/
def errorHandler (t : Task) (emsg : String) (at_ : String) : Task × List Ack :=
  ({ t with
      status := Status.failed
      completedAt := some at_
      log := t.log ++ "\nError: " ++ emsg },
   [Ack.fromSpawnError emsg])

/-- The `child.on('close')` handler (source lines 407–434): classify the
exit code (`complete` iff it is 0), set `completedAt` and `exitCode`, run
the commit extraction over the accumulated log and, when a hash was found,
derive a browsable commit URL from a GitHub remote reference; finally send
the terminal acknowledgment. -/
def closeHandler (t : Task) (code : Option Int) (at_ : String) : Task × List Ack :=
  let t1 := { t with
    status := if code = some 0 then Status.complete else Status.failed
    completedAt := some at_
    exitCode := code }
  let t2 :=
    match extractCommit t1.log with
    | none => t1
    | some c =>
      let withHash := { t1 with commitHash := some (String.mk c) }
      match findFirst repoAt withHash.log.data with
      | none => withHash
      | some repo =>
        let url := "https://github.com/" ++ String.mk (stripDotGit repo) ++
          "/commit/" ++ String.mk c
        { withHash with commitUrl := some url }
  (t2, [Ack.fromClose (code = some 0)])

/-- Dispatch one child event to the handler the source registers for it. -/
def stepEvent (t : Task) : ChildEvent → Task × List Ack
  | ChildEvent.output text => (outputHandler t text, [])
  | ChildEvent.spawnError emsg at_ => errorHandler t emsg at_
  | ChildEvent.closed code at_ => closeHandler t code at_

/-- Run a task record through a list of child events, collecting the
acknowledgments sent to the requester. -/
def runTask (t : Task) : List ChildEvent → Task × List Ack
  | [] => (t, [])
  | e :: rest =>
    let r := stepEvent t e
    let rr := runTask r.1 rest
    (rr.1, r.2 ++ rr.2)

/-- The events a failed spawn delivers, per the documented Node.js
`child_process` semantics: the `'error'` event, then the `'close'` event
(which always fires after `'error'` if the child failed to spawn), with a
null exit code. -/
def spawnFailureEvents (emsg at1 at2 : String) : List ChildEvent :=
  [ChildEvent.spawnError emsg at1, ChildEvent.closed none at2]

/-! ## Task store (source lines 131–169, 280–283, 439–442)

Tasks live in a JavaScript `Map` keyed by task id. A `Map` preserves
insertion order and re-setting an existing key updates the value in place
without moving it. `addTask` sets the entry and, when the size exceeds
`MAX_TASKS`, deletes the first key in iteration order (the oldest by
insertion). The `/tasks` endpoint and the `get_tasks` message both return
`Array.from(tasks.values()).reverse()`.
-/

/-- The task map, modelled as its entry list in `Map` iteration
(insertion) order. -/
abbrev Store : Type := List (String × Task)

/-- JavaScript `Map.prototype.set`: replace the value of an existing key
in place, otherwise append a new entry at the end. -/
def mapSet : Store → String → Task → Store
  | [], k, v => [(k, v)]
  | (k', v') :: rest, k, v =>
    if k' = k then (k, v) :: rest else (k', v') :: mapSet rest k v

/-- JavaScript `Map.prototype.delete`: remove the entry with the given key
(keys are unique in a `Map`; modelled as removing the first occurrence). -/
def mapDelete : Store → String → Store
  | [], _ => []
  | (k', v') :: rest, k =>
    if k' = k then rest else (k', v') :: mapDelete rest k

/-- Source line 132. -/
def MAX_TASKS : Nat := 50

/-- Source `addTask` (lines 162–169): set the entry, then if the size
exceeds `MAX_TASKS` delete the first key in iteration order. -/
def addTask (store : Store) (t : Task) : Store :=
  let s := mapSet store t.id t
  if MAX_TASKS < s.length then
    match s with
    | [] => s
    | (k, _) :: _ => mapDelete s k
  else s

/-- The `get_tasks` handler and the `/tasks` endpoint (source lines
280–283 and 439–442): `Array.from(tasks.values()).reverse()`. -/
def listTasks (store : Store) : List Task :=
  (store.map Prod.snd).reverse

/-! ## Concrete fixtures used by the witness theorems -/

/-- A sample element descriptor. -/
def demoElem : ElementDescriptor := ⟨"div", none, some [], none⟩

/-- A sample task with a given id. -/
def demoTask (id : String) : Task :=
  createTask id "make it blue" demoElem "/proj" none "claude-opus-4-5-20251101" "s0"

/-- Fifty-one tasks with pairwise distinct ids. -/
def tasks51 : List Task := (List.range 51).map (fun i => demoTask (Nat.repr i))

/-- A bead holding exactly ten change records. -/
def bead10 : Bead :=
  ⟨"el-demo", ⟨"div", none, none, none⟩,
   (List.range 10).map (fun i => ⟨Nat.repr i, "older feedback", "ts", true⟩)⟩

/-- A task whose accumulated output carries the explicit commit marker
followed by forty hex characters. -/
def taskWithMarker : Task :=
  outputHandler (demoTask "t5") ("COMMIT_HASH: " ++ String.mk (List.replicate 40 'a'))

/-- A task whose accumulated output contains no commit-shaped text. -/
def taskNoCommit : Task := outputHandler (demoTask "t8") "All done without committing"

/-! ## General helper lemmas -/

theorem sortStrings_perm_eq {l₁ l₂ : List String} (h : l₁.Perm l₂) :
    sortStrings l₁ = sortStrings l₂ :=
  List.eq_of_perm_of_sorted
    ((List.perm_insertionSort _ l₁).trans (h.trans (List.perm_insertionSort _ l₂).symm))
    (List.sorted_insertionSort _ l₁) (List.sorted_insertionSort _ l₂)

theorem toDigitsCore_length_le (b : Nat) :
    ∀ (fuel n : Nat) (acc : List Char), acc.length ≤ (Nat.toDigitsCore b fuel n acc).length := by
  intro fuel
  induction fuel with
  | zero => intro n acc; simp [Nat.toDigitsCore]
  | succ f ih =>
    intro n acc
    rw [Nat.toDigitsCore]
    by_cases h : n / b = 0
    · simp [h]
    · rw [if_neg h]
      exact le_trans (by simp) (ih (n / b) (Nat.digitChar (n % b) :: acc))

theorem toDigits_length_pos (b n : Nat) : 1 ≤ (Nat.toDigits b n).length := by
  rw [Nat.toDigits, Nat.toDigitsCore]
  by_cases h : n / b = 0
  · simp [h]
  · rw [if_neg h]
    exact le_trans (by simp) (toDigitsCore_length_le b n (n / b) [Nat.digitChar (n % b)])

/-! ## C6 — class order independence of the element key -/

/-- C6: for any two element descriptors that differ only in the order of
their class lists (all other fields equal, classes equal as multisets),
`generateElementId` yields the same key: the class list is sorted before
hashing. -/
theorem c6_generateElementId_class_order_independent
    (d1 d2 : ElementDescriptor) (htag : d1.tag = d2.tag) (hid : d1.id = d2.id)
    (hsel : d1.selector = d2.selector)
    (hcls : (d1.classes.getD []).Perm (d2.classes.getD [])) :
    generateElementId d1 = generateElementId d2 := by
  unfold generateElementId elementKey
  rw [htag, hid, hsel, sortStrings_perm_eq hcls]

/-- Witness for C6 at concrete descriptors whose class lists are
reorderings of each other. -/
theorem c6_generateElementId_class_order_independent_witness :
    generateElementId ⟨"div", some "x", some ["btn", "alpha"], some ".q"⟩ =
      generateElementId ⟨"div", some "x", some ["alpha", "btn"], some ".q"⟩ :=
  c6_generateElementId_class_order_independent _ _ rfl rfl rfl (by decide)

/-! ## C7 — the key is stable and total, but not fixed-width -/

/-- C7 counterexample: `generateElementId` is not fixed-width, because
`Math.abs(hash).toString(16)` is not padded. These two descriptors hash to
outputs of different lengths (8 and 9 characters). -/
theorem c7_counterexample_not_fixed_width :
    (generateElementId ⟨"", none, none, none⟩).length ≠
      (generateElementId ⟨"a", none, none, none⟩).length := by
  decide

/-- C7 (amended): `generateElementId` is a pure function of the
descriptor's four fields, total (missing optional fields behave as empty
values), and its result is a bounded-width — not fixed-width — token: the
prefix `el-` followed by 1 to 8 hex digits. -/
theorem c7_generateElementId_total_bounded (d : ElementDescriptor) :
    (generateElementId d).data.take 3 = ['e', 'l', '-'] ∧
    4 ≤ (generateElementId d).length ∧ (generateElementId d).length ≤ 11 ∧
    generateElementId d =
      generateElementId ⟨d.tag, some (d.id.getD ""), some (d.classes.getD []),
        some (d.selector.getD "")⟩ := by
  obtain ⟨tag, id, classes, sel⟩ := d
  refine ⟨?_, ?_, ?_, ?_⟩
  · rfl
  · show 4 ≤ ("el-" ++ String.mk _).length
    rw [String.length_append]
    have h1 : 1 ≤ (Nat.toDigits 16 (jsHash (utf16Units (elementKey ⟨tag, id, classes, sel⟩))).natAbs).length :=
      toDigits_length_pos _ _
    have h2 : (String.mk ((Nat.toDigits 16 (jsHash (utf16Units (elementKey ⟨tag, id, classes, sel⟩))).natAbs).take 8)).length =
        min 8 (Nat.toDigits 16 (jsHash (utf16Units (elementKey ⟨tag, id, classes, sel⟩))).natAbs).length := by
      show (List.take 8 _).length = _
      rw [List.length_take]
    rw [show ("el-".length = 3) from rfl] at *
    omega
  · show ("el-" ++ String.mk _).length ≤ 11
    rw [String.length_append]
    have h2 : (String.mk ((Nat.toDigits 16 (jsHash (utf16Units (elementKey ⟨tag, id, classes, sel⟩))).natAbs).take 8)).length =
        min 8 (Nat.toDigits 16 (jsHash (utf16Units (elementKey ⟨tag, id, classes, sel⟩))).natAbs).length := by
      show (List.take 8 _).length = _
      rw [List.length_take]
    rw [show ("el-".length = 3) from rfl] at *
    omega
  · cases id <;> cases classes <;> cases sel <;> rfl

/-! ## C10 — saving a bead never rewrites its descriptor snapshot -/

/-- C10: a `saveElementBead` call on an element whose bead already exists
leaves the stored descriptor snapshot (and the bead id) unchanged, even if
the descriptor passed in differs from the snapshot; only the changes list
is touched. -/
theorem c10_saveElementBead_snapshot_frame (b : Bead) (e : ElementDescriptor)
    (fb tid ts : String) (suc : Bool) :
    (saveElementBead (some b) e fb tid ts suc).element = b.element ∧
    (saveElementBead (some b) e fb tid ts suc).id = b.id := by
  exact ⟨rfl, rfl⟩

/-! ## C4 — the change history is capped at ten records, FIFO -/

/-- C4: after any `saveElementBead` call the changes list holds at most 10
records, and it is a suffix of the old records followed by the new one
(chronological order). Appending an 11th record to a bead that holds 10
leaves exactly 10 with the oldest dropped and the rest in order. -/
theorem c4_saveElementBead_changes_capped (existing : Option Bead)
    (e : ElementDescriptor) (fb tid ts : String) (suc : Bool) :
    (saveElementBead existing e fb tid ts suc).changes.length ≤ 10 ∧
    (saveElementBead existing e fb tid ts suc).changes <:+
      ((existing.map Bead.changes).getD [] ++ [⟨tid, fb, ts, suc⟩]) ∧
    (∀ b : Bead, existing = some b → b.changes.length = 10 →
      (saveElementBead existing e fb tid ts suc).changes =
        b.changes.tail ++ [⟨tid, fb, ts, suc⟩]) := by
  refine ⟨?_, ?_, ?_⟩
  · unfold saveElementBead
    dsimp only
    split
    · rename_i hgt
      rw [List.length_drop]
      omega
    · rename_i hle
      omega
  · unfold saveElementBead
    dsimp only
    cases existing <;> dsimp only [Option.getD, Option.map] <;> split
    · exact List.drop_suffix _ _
    · exact List.suffix_refl _
    · exact List.drop_suffix _ _
    · exact List.suffix_refl _
  · intro b hb hlen
    subst hb
    unfold saveElementBead
    dsimp only [Option.getD]
    have hcs : (b.changes ++ [(⟨tid, fb, ts, suc⟩ : ChangeRecord)]).length = 11 := by
      rw [List.length_append, hlen]
      rfl
    rw [if_pos (by omega), hcs]
    show (b.changes ++ [_]).drop 1 = _
    obtain ⟨c0, cs, hc⟩ : ∃ c0 cs, b.changes = c0 :: cs := by
      cases hbc : b.changes with
      | nil => rw [hbc] at hlen; simp at hlen
      | cons c0 cs => exact ⟨c0, cs, rfl⟩
    rw [hc]
    rfl

/-- Witness for C4 at a concrete bead holding exactly ten records. -/
theorem c4_saveElementBead_changes_capped_witness :
    bead10.changes.length = 10 ∧
    (saveElementBead (some bead10) demoElem "new feedback" "t11" "ts2" false).changes =
      bead10.changes.tail ++ [⟨"t11", "new feedback", "ts2", false⟩] :=
  ⟨by decide,
   (c4_saveElementBead_changes_capped (some bead10) demoElem "new feedback" "t11" "ts2"
      false).2.2 bead10 rfl (by decide)⟩

/-! ## Task store lemmas -/

theorem mapSet_of_not_mem (store : Store) (k : String) (v : Task)
    (h : k ∉ store.map Prod.fst) : mapSet store k v = store ++ [(k, v)] := by
  induction store with
  | nil => rfl
  | cons e rest ih =>
    obtain ⟨k', v'⟩ := e
    simp only [List.map_cons, List.mem_cons, not_or] at h
    rw [mapSet, if_neg (fun hh => h.1 hh.symm), ih h.2]
    rfl

theorem length_mapSet_of_mem (store : Store) (k : String) (v : Task)
    (h : k ∈ store.map Prod.fst) : (mapSet store k v).length = store.length := by
  induction store with
  | nil => simp at h
  | cons e rest ih =>
    obtain ⟨k', v'⟩ := e
    rw [mapSet]
    by_cases hk : k' = k
    · rw [if_pos hk]
      rfl
    · rw [if_neg hk]
      simp only [List.map_cons, List.mem_cons] at h
      rcases h with h | h

      · exact absurd h.symm hk
      · simp [ih h]

theorem keys_mapSet_of_mem (store : Store) (k : String) (v : Task)
    (h : k ∈ store.map Prod.fst) :
    (mapSet store k v).map Prod.fst = store.map Prod.fst := by
  induction store with
  | nil => simp at h
  | cons e rest ih =>
    obtain ⟨k', v'⟩ := e
    rw [mapSet]
    by_cases hk : k' = k
    · rw [if_pos hk, hk]
      rfl
    · rw [if_neg hk]
      simp only [List.map_cons, List.mem_cons] at h
      rcases h with h | h
      · exact absurd h.symm hk
      · simp [ih h]

theorem mapDelete_cons_self (k : String) (v : Task) (rest : Store) :
    mapDelete ((k, v) :: rest) k = rest := by
  rw [mapDelete, if_pos rfl]

theorem addTask_of_not_mem_lt (store : Store) (t : Task)
    (h : t.id ∉ store.map Prod.fst) (hlen : store.length < MAX_TASKS) :
    addTask store t = store ++ [(t.id, t)] := by
  unfold addTask
  rw [mapSet_of_not_mem store t.id t h]
  have : ¬ MAX_TASKS < (store ++ [(t.id, t)]).length := by
    rw [List.length_append]
    simp only [List.length_cons, List.length_nil]
    omega
  simp only [this, if_false]

theorem addTask_of_not_mem_full (store : Store) (t : Task)
    (h : t.id ∉ store.map Prod.fst) (hlen : store.length = MAX_TASKS) :
    addTask store t = store.tail ++ [(t.id, t)] := by
  unfold addTask
  rw [mapSet_of_not_mem store t.id t h]
  have hgt : MAX_TASKS < (store ++ [(t.id, t)]).length := by
    rw [List.length_append]
    simp only [List.length_cons, List.length_nil]
    omega
  rw [if_pos hgt]
  obtain ⟨e0, rest, hstore⟩ : ∃ e0 rest, store = e0 :: rest := by
    cases hs : store with
    | nil => rw [hs] at hlen; simp [MAX_TASKS] at hlen
    | cons e0 rest => exact ⟨e0, rest, rfl⟩
  obtain ⟨k0, v0⟩ := e0
  rw [hstore]
  show mapDelete ((k0, v0) :: (rest ++ [(t.id, t)])) k0 = rest ++ [(t.id, t)]
  exact mapDelete_cons_self _ _ _

theorem addTask_length_le (store : Store) (t : Task) (h : store.length ≤ MAX_TASKS) :
    (addTask store t).length ≤ MAX_TASKS := by
  unfold addTask
  dsimp only
  by_cases hmem : t.id ∈ store.map Prod.fst
  · have hl := length_mapSet_of_mem store t.id t hmem
    rw [hl, if_neg (by omega), hl]
    exact h
  · rw [mapSet_of_not_mem store t.id t hmem]
    by_cases hfull : MAX_TASKS < (store ++ [(t.id, t)]).length
    · rw [if_pos hfull]
      rw [List.length_append] at hfull
      simp only [List.length_cons, List.length_nil] at hfull
      obtain ⟨e0, rest, hstore⟩ : ∃ e0 rest, store = e0 :: rest := by
        cases hs : store with
        | nil => rw [hs] at hfull; simp [MAX_TASKS] at hfull
        | cons e0 rest => exact ⟨e0, rest, rfl⟩
      obtain ⟨k0, v0⟩ := e0
      rw [hstore]
      show (mapDelete ((k0, v0) :: (rest ++ [(t.id, t)])) k0).length ≤ MAX_TASKS
      rw [mapDelete_cons_self]
      rw [hstore] at h
      rw [List.length_append]
      simp only [List.length_cons, List.length_nil] at h ⊢
      omega
    · rw [if_neg hfull]
      omega

theorem foldl_addTask_length (seq : List Task) :
    ∀ store : Store, store.length ≤ MAX_TASKS →
      (List.foldl addTask store seq).length ≤ MAX_TASKS := by
  induction seq with
  | nil => intro store h; exact h
  | cons t rest ih =>
    intro store h
    rw [List.foldl_cons]
    exact ih (addTask store t) (addTask_length_le store t h)

theorem foldl_addTask_distinct (seq : List Task)
    (hnd : (seq.map (fun t => t.id)).Nodup) (hlen : seq.length ≤ MAX_TASKS) :
    List.foldl addTask [] seq = seq.map (fun t => (t.id, t)) := by
  induction seq using List.reverseRecOn with
  | nil => rfl
  | append_singleton l t ih =>
    rw [List.map_append, List.nodup_append] at hnd
    obtain ⟨hndl, -, hdisj⟩ := hnd
    have hfresh : t.id ∉ l.map (fun t => t.id) := by
      intro hmem
      exact hdisj hmem (by simp)
    have hlenl : l.length < MAX_TASKS := by
      rw [List.length_append] at hlen
      simp only [List.length_cons, List.length_nil] at hlen
      omega
    rw [List.foldl_append, List.foldl_cons, List.foldl_nil,
      ih hndl (le_of_lt hlenl)]
    have hkeys : (l.map (fun t => (t.id, t))).map Prod.fst = l.map (fun t => t.id) := by
      rw [List.map_map]
      rfl
    have hfresh2 : t.id ∉ (l.map (fun t => (t.id, t))).map Prod.fst := by
      rw [hkeys]; exact hfresh
    rw [addTask_of_not_mem_lt _ t hfresh2 (by rw [List.length_map]; exact hlenl)]
    rw [List.map_append]
    rfl

/-! ## C3 — the task store is bounded at MAX_TASKS, oldest evicted -/

/-- C3: after any sequence of `addTask` calls (starting from the empty
store) at most `MAX_TASKS` tasks are resident; submitting
`MAX_TASKS + 1` tasks with distinct ids leaves exactly the last
`MAX_TASKS` of them resident in insertion order — the least recently
added task is evicted. -/
theorem c3_addTask_bounded_eviction :
    (∀ seq : List Task, (List.foldl addTask [] seq).length ≤ MAX_TASKS) ∧
    (∀ seq : List Task, (seq.map (fun t => t.id)).Nodup →
      seq.length = MAX_TASKS + 1 →
      List.foldl addTask [] seq = (seq.drop 1).map (fun t => (t.id, t))) := by
  constructor
  · intro seq
    exact foldl_addTask_length seq [] (by simp [MAX_TASKS])
  · intro seq hnd hlen
    induction seq using List.reverseRecOn with
    | nil => simp [MAX_TASKS] at hlen
    | append_singleton l t _ =>
      rw [List.map_append, List.nodup_append] at hnd
      obtain ⟨hndl, -, hdisj⟩ := hnd
      have hfresh : t.id ∉ l.map (fun t => t.id) := by
        intro hmem
        exact hdisj hmem (by simp)
      have hlenl : l.length = MAX_TASKS := by
        rw [List.length_append] at hlen
        simp only [List.length_cons, List.length_nil] at hlen
        omega
      rw [List.foldl_append, List.foldl_cons, List.foldl_nil,
        foldl_addTask_distinct l hndl (le_of_eq hlenl)]
      have hkeys : (l.map (fun t => (t.id, t))).map Prod.fst = l.map (fun t => t.id) := by
        rw [List.map_map]
        rfl
      have hfresh2 : t.id ∉ (l.map (fun t => (t.id, t))).map Prod.fst := by
        rw [hkeys]; exact hfresh
      rw [addTask_of_not_mem_full _ t hfresh2 (by rw [List.length_map]; exact hlenl)]
      have hne : l ≠ [] := by
        intro hnil
        rw [hnil] at hlenl
        simp [MAX_TASKS] at hlenl
      rw [List.drop_append_of_le_length (by cases l with
        | nil => exact absurd rfl hne
        | cons a as => simp), List.drop_one, List.map_append, List.map_tail]
      rfl

/-- Witness for C3 at fifty-one concrete tasks with distinct ids. -/
theorem c3_addTask_bounded_eviction_witness :
    (tasks51.map (fun t => t.id)).Nodup ∧
    List.foldl addTask [] tasks51 = (tasks51.drop 1).map (fun t => (t.id, t)) :=
  ⟨by decide, c3_addTask_bounded_eviction.2 tasks51 (by decide) (by decide)⟩

/-! ## C9 — the task list query returns the reverse of insertion order -/

/-- C9: `listTasks` (the `get_tasks` message and the `/tasks` endpoint)
returns all resident tasks most recent first — the reverse of the store's
insertion order — for any sequence of submissions: distinct-id sequences
land in submission order and are returned newest first, and a submission
that reuses a resident id updates the value in place, keeping the key
order unchanged and triggering no eviction. -/
theorem c9_listTasks_most_recent_first :
    (∀ seq : List Task, (seq.map (fun t => t.id)).Nodup → seq.length ≤ MAX_TASKS →
      listTasks (List.foldl addTask [] seq) = seq.reverse) ∧
    (∀ (store : Store) (t : Task), store.length ≤ MAX_TASKS →
      t.id ∈ store.map Prod.fst →
      addTask store t = mapSet store t.id t ∧
      (mapSet store t.id t).map Prod.fst = store.map Prod.fst) := by
  constructor
  · intro seq hnd hlen
    rw [foldl_addTask_distinct seq hnd hlen]
    unfold listTasks
    rw [List.map_map]
    have : (Prod.snd ∘ fun t : Task => (t.id, t)) = id := rfl
    rw [this, List.map_id]
  · intro store t hlen hmem
    refine ⟨?_, keys_mapSet_of_mem store t.id t hmem⟩
    unfold addTask
    dsimp only
    rw [length_mapSet_of_mem store t.id t hmem, if_neg (by omega)]

/-- Witness for C9 at two concrete submissions with distinct ids. -/
theorem c9_listTasks_most_recent_first_witness :
    listTasks (List.foldl addTask [] [demoTask "a", demoTask "b"]) =
      [demoTask "a", demoTask "b"].reverse :=
  c9_listTasks_most_recent_first.1 [demoTask "a", demoTask "b"] (by decide) (by decide)

/-! ## Close handler field lemmas -/

theorem closeHandler_status (t : Task) (code : Option Int) (at_ : String) :
    (closeHandler t code at_).1.status =
      if code = some 0 then Status.complete else Status.failed := by
  unfold closeHandler
  dsimp only
  split
  · rfl
  · split <;> rfl

theorem closeHandler_completedAt (t : Task) (code : Option Int) (at_ : String) :
    (closeHandler t code at_).1.completedAt = some at_ := by
  unfold closeHandler
  dsimp only
  split
  · rfl
  · split <;> rfl

theorem closeHandler_exitCode (t : Task) (code : Option Int) (at_ : String) :
    (closeHandler t code at_).1.exitCode = code := by
  unfold closeHandler
  dsimp only
  split
  · rfl
  · split <;> rfl

theorem closeHandler_commitHash (t : Task) (code : Option Int) (at_ : String) :
    (closeHandler t code at_).1.commitHash =
      (match extractCommit t.log with
       | none => t.commitHash
       | some c => some (String.mk c)) := by
  unfold closeHandler
  dsimp only
  split
  · rfl
  · split <;> rfl

theorem closeHandler_commitUrl_of_none (t : Task) (code : Option Int) (at_ : String)
    (h : extractCommit t.log = none) :
    (closeHandler t code at_).1.commitUrl = t.commitUrl := by
  unfold closeHandler
  dsimp only
  split
  · rfl
  · rename_i c heq
    rw [show ({ t with
        status := if code = some 0 then Status.complete else Status.failed,
        completedAt := some at_, exitCode := code } : Task).log = t.log from rfl] at heq
    rw [h] at heq
    exact absurd heq (by simp)

theorem closeHandler_acks (t : Task) (code : Option Int) (at_ : String) :
    (closeHandler t code at_).2 = [Ack.fromClose (code = some 0)] := rfl

/-! ## C1 — spawn failure: the error path, the completion path, and the
terminal acknowledgments actually delivered -/

/-- C1 evaluated at the failing input: a task whose spawn fails. Per the
documented Node.js `child_process` semantics the `'close'` event always
fires after `'error'` when the child failed to spawn, so the code runs
both the error handler and the close handler and sends the requester two
terminal acknowledgments — not one, and the completion path is invoked.
The resulting record is also left `failed` with a null exit code. -/
theorem c1_spawn_failure_sends_two_acks :
    (runTask (demoTask "t1") (spawnFailureEvents "spawn ENOENT" "s1" "s2")).2 =
      [Ack.fromSpawnError "spawn ENOENT", Ack.fromClose false] ∧
    (runTask (demoTask "t1") (spawnFailureEvents "spawn ENOENT" "s1" "s2")).1.status =
      Status.failed ∧
    (runTask (demoTask "t1") (spawnFailureEvents "spawn ENOENT" "s1" "s2")).1.exitCode =
      none := by
  refine ⟨?_, ?_, ?_⟩ <;> decide

/-! ## C2 — completion fields versus status -/

/-- C2 counterexample: a task whose process terminates without a numeric
exit code (a `'close'` event with a null code, e.g. signal termination)
ends with `status = failed` and `completedAt` set while `exitCode` stays
unset, so "`completedAt` and `exitCode` are both set iff
`status != processing`" fails on the code. (The spawn-error handler
likewise never sets `exitCode`.) -/
theorem c2_counterexample_exitCode_unset :
    ¬ (((runTask (demoTask "c2") [ChildEvent.closed none "s1"]).1.completedAt.isSome = true ∧
        (runTask (demoTask "c2") [ChildEvent.closed none "s1"]).1.exitCode.isSome = true) ↔
       (runTask (demoTask "c2") [ChildEvent.closed none "s1"]).1.status ≠ Status.processing) := by
  decide

/-- C2 (amended): for every task reachable through the lifecycle
(creation, output append, spawn error, process close), `completedAt` is
set iff the status is not `processing`, and `exitCode` is set only if the
status is not `processing` — it can remain unset in a failed state (spawn
failure, or a close event with no numeric code). -/
theorem c2_completion_fields_invariant (id fb : String) (e : ElementDescriptor)
    (pp : String) (pu : Option String) (m st : String) (evs : List ChildEvent) :
    ((runTask (createTask id fb e pp pu m st) evs).1.completedAt.isSome = true ↔
      (runTask (createTask id fb e pp pu m st) evs).1.status ≠ Status.processing) ∧
    ((runTask (createTask id fb e pp pu m st) evs).1.exitCode.isSome = true →
      (runTask (createTask id fb e pp pu m st) evs).1.status ≠ Status.processing) := by
  have hstep : ∀ (t : Task) (ev : ChildEvent),
      ((t.completedAt.isSome = true ↔ t.status ≠ Status.processing) ∧
       (t.exitCode.isSome = true → t.status ≠ Status.processing)) →
      (((stepEvent t ev).1.completedAt.isSome = true ↔
          (stepEvent t ev).1.status ≠ Status.processing) ∧
       ((stepEvent t ev).1.exitCode.isSome = true →
          (stepEvent t ev).1.status ≠ Status.processing)) := by
    intro t ev hinv
    cases ev with
    | output text =>
      exact hinv
    | spawnError emsg at_ =>
      constructor
      · simp [stepEvent, errorHandler]
      · intro _
        simp [stepEvent, errorHandler]
    | closed code at_ =>
      have hs : (stepEvent t (ChildEvent.closed code at_)).1.status ≠ Status.processing := by
        show (closeHandler t code at_).1.status ≠ Status.processing
        rw [closeHandler_status]
        split <;> simp
      constructor
      · constructor
        · intro _
          exact hs
        · intro _
          show ((closeHandler t code at_).1.completedAt).isSome = true
          rw [closeHandler_completedAt]
          rfl
      · intro _
        exact hs
  have hrun : ∀ (evs : List ChildEvent) (t : Task),
      ((t.completedAt.isSome = true ↔ t.status ≠ Status.processing) ∧
       (t.exitCode.isSome = true → t.status ≠ Status.processing)) →
      (((runTask t evs).1.completedAt.isSome = true ↔
          (runTask t evs).1.status ≠ Status.processing) ∧
       ((runTask t evs).1.exitCode.isSome = true →
          (runTask t evs).1.status ≠ Status.processing)) := by
    intro evs
    induction evs with
    | nil => intro t hinv; exact hinv
    | cons ev rest ih =>
      intro t hinv
      exact ih (stepEvent t ev).1 (hstep t ev hinv)
  exact hrun evs (createTask id fb e pp pu m st) (by simp [createTask])

/-- Witness for C2's amended invariant on a concrete completed run,
discharging the exit-code hypothesis. -/
theorem c2_completion_fields_invariant_witness :
    (runTask (createTask "c2w" "fb" demoElem "/p" none "m" "s0")
      [ChildEvent.closed (some 2) "s1"]).1.status ≠ Status.processing :=
  (c2_completion_fields_invariant "c2w" "fb" demoElem "/p" none "m" "s0"
    [ChildEvent.closed (some 2) "s1"]).2 (by decide)

/-! ## Output parser lemmas -/

theorem hex_not_space (c : Char) (h : isHexDigit c = true) : isJsSpace c = false := by
  rw [← Bool.not_eq_true]
  intro hs
  simp only [isHexDigit, Bool.or_eq_true, Bool.and_eq_true, decide_eq_true_eq] at h
  simp only [isJsSpace, Bool.or_eq_true, Bool.and_eq_true, decide_eq_true_eq] at hs
  omega

theorem findFirst_eq_of_self {p : List Char → Option (List Char)} {s c : List Char}
    (hp : p s = some c) : findFirst p s = some c := by
  cases s with
  | nil => simpa [findFirst] using hp
  | cons a rest => simp [findFirst, hp]

theorem findFirst_shape {p : List Char → Option (List Char)} {Q : List Char → Prop}
    (hp : ∀ s c, p s = some c → Q c) : ∀ s c, findFirst p s = some c → Q c := by
  intro s
  induction s with
  | nil =>
    intro c hc
    exact hp [] c (by simpa [findFirst] using hc)
  | cons a rest ih =>
    intro c hc
    unfold findFirst at hc
    split at hc
    · rename_i r heq
      cases hc
      exact hp _ _ heq
    · exact ih c hc

theorem findFirst_isSome_suffix {p : List Char → Option (List Char)} :
    ∀ (s1 s2 : List Char), s2 <:+ s1 → (p s2).isSome = true →
      (findFirst p s1).isSome = true := by
  intro s1
  induction s1 with
  | nil =>
    intro s2 hsuf hp
    rw [List.suffix_nil] at hsuf
    subst hsuf
    simpa [findFirst] using hp
  | cons a rest ih =>
    intro s2 hsuf hp
    rw [List.suffix_cons_iff] at hsuf
    unfold findFirst
    rcases hsuf with rfl | hsuf
    · cases hps : p (a :: rest) with
      | some r => simp
      | none => rw [hps] at hp; simp at hp
    · cases hps : p (a :: rest) with
      | some r => simp
      | none => simpa using ih s2 hsuf hp

theorem p1At_shape : ∀ s c, p1At s = some c → c.length = 40 ∧ c.all isHexDigit = true := by
  intro s c h
  unfold p1At at h
  split at h
  · exact absurd h (by simp)
  · dsimp only at h
    split at h
    · rename_i hcond
      cases h
      exact hcond
    · exact absurd h (by simp)

theorem p1At_at_label (h post : List Char) (hlen : h.length = 40)
    (hhex : h.all isHexDigit = true) :
    p1At ("COMMIT_HASH: ".data ++ (h ++ post)) = some h := by
  have hm : matchLowerLit "commit_hash:".data ("COMMIT_HASH: ".data ++ (h ++ post)) =
      some (' ' :: (h ++ post)) := rfl
  unfold p1At
  rw [hm]
  dsimp only
  have hd : (' ' :: (h ++ post)).dropWhile isJsSpace = h ++ post := by
    rw [List.dropWhile_cons, if_pos (show isJsSpace ' ' = true by decide)]
    cases hcase : h with
    | nil => rw [hcase] at hlen; simp at hlen
    | cons c0 h' =>
      have hc0 : isHexDigit c0 = true := by
        rw [hcase] at hhex
        rw [List.all_cons, Bool.and_eq_true] at hhex
        exact hhex.1
      rw [List.cons_append, List.dropWhile_cons, hex_not_space c0 hc0]
      simp
  rw [hd]
  have ht : (h ++ post).take 40 = h := by
    rw [← hlen]
    exact List.take_left h post
  rw [ht, if_pos ⟨hlen, hhex⟩]

/-! ## C5 — ordered first-match-wins commit extraction -/

/-- C5: commit extraction evaluates the ordered pattern list — the labeled
`COMMIT_HASH` token, then the bracketed hex identifier, then the bare
`commit <id>` phrase — and returns the capture of the first pattern that
matches anywhere in the text, never consulting later patterns once one
matches. A task exiting 0 whose output contains `COMMIT_HASH: ` followed
by 40 hex characters ends complete with that capture as its commit hash. -/
theorem c5_extraction_first_match_wins :
    (∀ s c, findFirst p1At s = some c → extractCommit (String.mk s) = some c) ∧
    (∀ s c, findFirst p1At s = none → findFirst p2At s = some c →
      extractCommit (String.mk s) = some c) ∧
    (∀ s, findFirst p1At s = none → findFirst p2At s = none →
      extractCommit (String.mk s) = findFirst p3At s) ∧
    (∀ h post, h.length = 40 → h.all isHexDigit = true →
      findFirst p1At ("COMMIT_HASH: ".data ++ (h ++ post)) = some h) ∧
    (∀ (t : Task) (at_ : String) (pre h post : List Char),
      t.log.data = pre ++ ("COMMIT_HASH: ".data ++ (h ++ post)) → h.length = 40 →
      h.all isHexDigit = true →
      (closeHandler t (some 0) at_).1.status = Status.complete ∧
      ∃ c, (closeHandler t (some 0) at_).1.commitHash = some (String.mk c) ∧
        c.length = 40 ∧ c.all isHexDigit = true) ∧
    (∀ (t : Task) (at_ : String) (h : List Char),
      findFirst p1At t.log.data = some h →
      (closeHandler t (some 0) at_).1.status = Status.complete ∧
      (closeHandler t (some 0) at_).1.commitHash = some (String.mk h)) := by
  have hext1 : ∀ (log : String) (c : List Char), findFirst p1At log.data = some c →
      extractCommit log = some c := by
    intro log c hf
    unfold extractCommit
    rw [hf]
  have hstatus : ∀ (t : Task) (at_ : String),
      (closeHandler t (some 0) at_).1.status = Status.complete := by
    intro t at_
    rw [closeHandler_status, if_pos rfl]
  refine ⟨?_, ?_, ?_, ?_, ?_, ?_⟩
  · intro s c hf
    exact hext1 (String.mk s) c hf
  · intro s c hf1 hf2
    unfold extractCommit
    rw [show (String.mk s).data = s from rfl, hf1, hf2]
  · intro s hf1 hf2
    unfold extractCommit
    rw [show (String.mk s).data = s from rfl, hf1, hf2]
  · intro h post hlen hhex
    exact findFirst_eq_of_self (p1At_at_label h post hlen hhex)
  · intro t at_ pre h post hlog hlen hhex
    refine ⟨hstatus t at_, ?_⟩
    have hsuf : ("COMMIT_HASH: ".data ++ (h ++ post)) <:+ t.log.data := ⟨pre, hlog.symm⟩
    have hat : (p1At ("COMMIT_HASH: ".data ++ (h ++ post))).isSome = true := by
      rw [p1At_at_label h post hlen hhex]
      rfl
    have hsome := findFirst_isSome_suffix t.log.data _ hsuf hat
    obtain ⟨c, hc⟩ := Option.isSome_iff_exists.mp hsome
    have hshape := findFirst_shape p1At_shape _ _ hc
    refine ⟨c, ?_, hshape.1, hshape.2⟩
    rw [closeHandler_commitHash, hext1 t.log c hc]
  · intro t at_ h hf
    refine ⟨hstatus t at_, ?_⟩
    rw [closeHandler_commitHash, hext1 t.log h hf]

/-- Witness for C5 at a task whose log is
`COMMIT_HASH: ` followed by forty `a` characters. -/
theorem c5_extraction_first_match_wins_witness :
    (closeHandler taskWithMarker (some 0) "s1").1.status = Status.complete ∧
    (closeHandler taskWithMarker (some 0) "s1").1.commitHash =
      some (String.mk (List.replicate 40 'a')) :=
  c5_extraction_first_match_wins.2.2.2.2.2 taskWithMarker "s1"
    (List.replicate 40 'a') (by decide)

/-! ## C8 — a successful exit without commit-shaped output is complete -/

/-- C8: a task whose process exits with code 0 and whose accumulated
output matches none of the commit patterns ends complete with the commit
hash and URL absent, and the requester is acknowledged with success — no
error is raised. -/
theorem c8_no_commit_match_still_complete (t : Task) (at_ : String)
    (hh : t.commitHash = none) (hu : t.commitUrl = none)
    (hp : extractCommit t.log = none) :
    (closeHandler t (some 0) at_).1.status = Status.complete ∧
    (closeHandler t (some 0) at_).1.commitHash = none ∧
    (closeHandler t (some 0) at_).1.commitUrl = none ∧
    (closeHandler t (some 0) at_).2 = [Ack.fromClose true] := by
  refine ⟨?_, ?_, ?_, ?_⟩
  · rw [closeHandler_status, if_pos rfl]
  · rw [closeHandler_commitHash, hp]
    exact hh
  · rw [closeHandler_commitUrl_of_none t _ _ hp]
    exact hu
  · rfl

/-- Witness for C8 at a task whose output holds no commit-shaped text. -/
theorem c8_no_commit_match_still_complete_witness :
    (closeHandler taskNoCommit (some 0) "s1").1.status = Status.complete ∧
    (closeHandler taskNoCommit (some 0) "s1").1.commitHash = none ∧
    (closeHandler taskNoCommit (some 0) "s1").1.commitUrl = none ∧
    (closeHandler taskNoCommit (some 0) "s1").2 = [Ack.fromClose true] :=
  c8_no_commit_match_still_complete taskNoCommit "s1" (by decide) (by decide) (by decide)

end VisualFeedback
